import Mathlib

/-!
Verification of the Vhisper core against its embedded source.

The embedding translates `src-tauri/src/pipeline/voice.rs`, the three ASR
clients (`asr/dashscope.rs`, `asr/funasr.rs`, `asr/qwen.rs`) and the hotkey
debouncers (`hotkey/macos.rs`, `hotkey/windows.rs`).  Boundary modules that the
repository references but whose sources are outside the embedded tree
(`audio`, `output`, `llm/mod.rs`, `asr/traits.rs`, `asr/mod.rs`) are modelled
from the specification and marked as such in their doc comments.

Effectful calls (capture device, encoders, network services, output) are
represented by environment-supplied results; incoming WebSocket traffic is a
list of frames carried by the environment, and outbound frames are returned as
an explicit trace.  Transport-level send failures (which abort a session with a
Network error before any result is produced) are outside the modelled
behaviours; every claim here is about the read side or about what is sent.
f32 samples are embedded as rationals: the amplitude gate only uses abs, max
and comparisons, which are exact.
-/

namespace Vhisper

/-- Modelled from the spec (§4.1, `asr/traits.rs` not in the embedded tree):
the uniform ASR error kinds Network / Encoding / Api. -/
inductive AsrError
  | network (msg : String)
  | encoding (msg : String)
  | api (msg : String)
  deriving DecidableEq

/-- Modelled from the spec (§3, `asr/traits.rs` not in the embedded tree):
the recognition result record. -/
structure AsrResult where
  text : String
  is_final : Bool
  deriving DecidableEq

/-- Modelled from the spec (§7, `audio` module not in the embedded tree):
audio-side failures, split into capture-device failures (from the recorder)
and encoding failures (from the WAV encoder). -/
inductive AudioError
  | device (msg : String)
  | encode (msg : String)
  deriving DecidableEq

/-- Modelled from the spec (`llm` module error type not in the embedded tree). -/
inductive LlmError
  | mk (msg : String)
  deriving DecidableEq

/-- Modelled from the spec (`output` module error type not in the embedded tree). -/
inductive OutputError
  | mk (msg : String)
  deriving DecidableEq

/-- `PipelineError` from `pipeline/voice.rs`. -/
inductive PipelineError
  | audio (e : AudioError)
  | asr (e : AsrError)
  | llm (e : LlmError)
  | output (e : OutputError)
  | other (msg : String)
  deriving DecidableEq

/-- Modelled from the spec (§3 RecordingState): the recorder's two-state flag. -/
inductive RecState
  | idle
  | recording
  deriving DecidableEq

/-- Modelled from the spec (§3, §6; `audio::AudioRecorder` is not in the
embedded tree): recorder state, the append-only sample buffer, and the
reported sample rate / channel count. -/
structure AudioRecorder where
  state : RecState
  buffer : List ℚ
  sample_rate : ℕ
  channels : ℕ
  deriving DecidableEq

/-- Modelled from the spec (§4.3, §6): `stop` drains the buffer and transitions
the recorder to Idle; the device outcome is supplied by the environment.  On a
device failure the recorder is left unchanged (the spec does not constrain it). -/
def AudioRecorder.stop (r : AudioRecorder) (device : Except String Unit) :
    Except AudioError (List ℚ) × AudioRecorder :=
  match device with
  | .error m => (.error (.device m), r)
  | .ok _ => (.ok r.buffer, { r with state := .idle, buffer := [] })

/-- The `AppConfig` fields consumed by `stop_and_process` (spec §3). -/
structure AppConfigCore where
  asr_provider : String
  llm_enabled : Bool
  restore_clipboard : Bool
  paste_delay_ms : ℕ

/-- Environment of one `stop_and_process` run: the configuration snapshot and
the outcomes of every boundary call the pipeline can make.  Encoders, LLM
creation/refinement and output are modelled from the spec (§6) since their
modules are outside the embedded tree. -/
structure PipeEnv where
  config : AppConfigCore
  stop_device : Except String Unit
  encode_to_wav : List ℚ → ℕ → ℕ → Except String (List ℕ)
  encode_to_pcm : List ℚ → List ℕ
  create_asr : Except AsrError Unit
  recognize : List ℕ → ℕ → Except AsrError AsrResult
  create_llm : Except LlmError (Option Unit)
  refine_text : String → Except LlmError String
  output_text : String → Bool → ℕ → Option ℤ → Except OutputError Unit

/-- Observable boundary calls made during one `stop_and_process` run, in order. -/
inductive PipeEvent
  | encodeWav
  | encodePcm
  | asrInvoked (audio : List ℕ) (sample_rate : ℕ)
  | refineInvoked (text : String)
  | outputInvoked (text : String) (pid : Option ℤ)
  deriving DecidableEq

deriving instance DecidableEq for Except

/-- Result of one `stop_and_process` run: the returned value, the final
recorder state and the trace of boundary calls. -/
structure PipeOut where
  result : Except PipelineError String
  recorder : AudioRecorder
  events : List PipeEvent
  deriving DecidableEq

/-- voice.rs line 81: `samples.iter().map(|s| s.abs()).fold(0.0f32, f32::max)`. -/
def max_amplitude (samples : List ℚ) : ℚ :=
  (samples.map (fun s => |s|)).foldl max 0

/-- voice.rs line 97. -/
def silence_error_msg : String := "录音无声音，请检查麦克风权限是否已授予当前应用"

/-- voice.rs line 104. -/
def quiet_error_msg : String := "录音音量太低，请靠近麦克风或大声说话"

/-- voice.rs lines 110-168: the part of `stop_and_process` after the amplitude
gate has passed — encoding, ASR, optional LLM refinement, output. -/
def process_gated (env : PipeEnv) (original_app_pid : Option ℤ) (samples : List ℚ)
    (rec : AudioRecorder) : PipeOut :=
  let sample_rate := rec.sample_rate
  let enc : Except AudioError (List ℕ) × PipeEvent :=
    if env.config.asr_provider = "OpenAIWhisper" then
      ((env.encode_to_wav samples sample_rate rec.channels).mapError AudioError.encode,
        PipeEvent.encodeWav)
    else
      (.ok (env.encode_to_pcm samples), PipeEvent.encodePcm)
  match enc with
  | (.error e, ev) => ⟨.error (.audio e), rec, [ev]⟩
  | (.ok audio_data, ev) =>
    match env.create_asr with
    | .error e => ⟨.error (.asr e), rec, [ev]⟩
    | .ok _ =>
      match env.recognize audio_data sample_rate with
      | .error e => ⟨.error (.asr e), rec, [ev, .asrInvoked audio_data sample_rate]⟩
      | .ok asr_result =>
        let text0 := asr_result.text
        let refined : String × List PipeEvent :=
          if env.config.llm_enabled && !text0.isEmpty then
            match env.create_llm with
            | .ok (some _) =>
              match env.refine_text text0 with
              | .ok r => (r, [PipeEvent.refineInvoked text0])
              | .error _ => (text0, [PipeEvent.refineInvoked text0])
            | _ => (text0, [])
          else (text0, [])
        let final_text := refined.1
        let evs := [ev, PipeEvent.asrInvoked audio_data sample_rate] ++ refined.2
        if final_text.isEmpty then ⟨.ok final_text, rec, evs⟩
        else
          match env.output_text final_text env.config.restore_clipboard
              env.config.paste_delay_ms original_app_pid with
          | .ok _ =>
            ⟨.ok final_text, rec, evs ++ [.outputInvoked final_text original_app_pid]⟩
          | .error e =>
            ⟨.error (.output e), rec, evs ++ [.outputInvoked final_text original_app_pid]⟩

/-- voice.rs lines 56-169: `VoicePipeline::stop_and_process`.  Stops the
recorder (drain + Recording→Idle), returns the empty string on an empty
buffer, applies the amplitude gate, then runs the gated continuation. -/
def stop_and_process (env : PipeEnv) (original_app_pid : Option ℤ)
    (rec : AudioRecorder) : PipeOut :=
  match AudioRecorder.stop rec env.stop_device with
  | (.error e, rec2) => ⟨.error (.audio e), rec2, []⟩
  | (.ok samples, rec2) =>
    if samples.isEmpty then ⟨.ok "", rec2, []⟩
    else
      let maxAmp := max_amplitude samples
      if maxAmp < 0.001 then ⟨.error (.other silence_error_msg), rec2, []⟩
      else if maxAmp < 0.05 then ⟨.error (.other quiet_error_msg), rec2, []⟩
      else process_gated env original_app_pid samples rec2

/-! ## ASR provider clients

Incoming WebSocket traffic is modelled as a list of frames; a Text frame
carries its serde deserialization outcome.  Outbound traffic is returned as a
trace of sent frames. -/

/-- An incoming WebSocket frame, with Text frames at the parsed level
(`α` is the client's response structure; `.text (.error e)` is a Text frame
whose JSON does not deserialize into `α`). -/
inductive WsIncoming (α : Type)
  | text (parse : Except String α)
  | close
  | sockErr (msg : String)
  | other
  deriving DecidableEq

/-- An outbound WebSocket frame: a JSON command frame (identified by its
action/event tag) or an audio chunk (for the realtime conversational client,
the append event carrying the base64 of those bytes). -/
inductive SentFrame
  | textFrame (tag : String)
  | audioFrame (bytes : List ℕ)
  deriving DecidableEq

/-- The bytes of an outbound frame when it is an audio chunk. -/
def SentFrame.audioBytes : SentFrame → Option (List ℕ)
  | .audioFrame b => some b
  | _ => none

/-- The audio chunks among the sent frames, in order. -/
def audio_frames (sent : List SentFrame) : List (List ℕ) :=
  sent.filterMap SentFrame.audioBytes

/-- Fuel-indexed worker for `chunksOf`; the fuel starts at the list length,
which suffices because each step consumes at least one element. -/
def chunksOfAux (n : ℕ) : ℕ → List α → List (List α)
  | 0, _ => []
  | _, [] => []
  | fuel + 1, x :: xs => (x :: xs).take n :: chunksOfAux n fuel ((x :: xs).drop n)

/-- Rust `slice::chunks`: pieces of length `n`, the last possibly shorter.
(`chunks(0)` panics in Rust; the embedding returns `[]` there and every use
below has a positive chunk size.) -/
def chunksOf (n : ℕ) (l : List α) : List (List α) :=
  if n = 0 then [] else chunksOfAux n l.length l

/-! ### DashScope client (`asr/dashscope.rs`) -/

/-- dashscope.rs lines 86-91. -/
structure WsSentence where
  text : Option String
  sentence_end : Bool
  deriving DecidableEq

/-- dashscope.rs lines 81-84. -/
structure WsOutput where
  sentence : Option WsSentence
  deriving DecidableEq

/-- dashscope.rs lines 76-79. -/
structure WsResponsePayload where
  output : Option WsOutput
  deriving DecidableEq

/-- dashscope.rs lines 65-74 (the unused `task_id` field is omitted). -/
structure WsResponseHeader where
  event : String
  error_code : Option String
  error_message : Option String
  deriving DecidableEq

/-- dashscope.rs lines 59-63. -/
structure WsResponse where
  header : WsResponseHeader
  payload : Option WsResponsePayload
  deriving DecidableEq

/-- Environment of one DashScope `recognize` call: the connect outcome and the
incoming frame list. -/
structure DsIo where
  connect : Except String Unit
  msgs : List (WsIncoming WsResponse)

/-- dashscope.rs lines 149-178: the wait-for-`task-started` loop.  Returns the
flag together with the frames left unconsumed. -/
def waitTaskStarted :
    List (WsIncoming WsResponse) →
      Except AsrError (Bool × List (WsIncoming WsResponse))
  | [] => .ok (false, [])
  | .text (.error e) :: _ => .error (.api ("解析响应失败: " ++ e))
  | .text (.ok r) :: rest =>
    match r.header.error_code with
    | some code => .error (.api (code ++ ": " ++ r.header.error_message.getD ""))
    | none =>
      if r.header.event = "task-started" then .ok (true, rest)
      else waitTaskStarted rest
  | .close :: _ => .error (.network "WebSocket 连接被关闭")
  | .sockErr e :: _ => .error (.network e)
  | .other :: rest => waitTaskStarted rest

/-- dashscope.rs lines 237-248: how one `result-generated` sentence updates the
accumulated transcript (a sentence-end text always overwrites; a non-final
text only fills an empty accumulator). -/
def ds_sentence_step (acc : String) (s : WsSentence) : String :=
  match s.text with
  | some t => if s.sentence_end then t else if acc.isEmpty then t else acc
  | none => acc

/-- dashscope.rs lines 218-268: the result-collection loop. -/
def ds_collect_results :
    List (WsIncoming WsResponse) → String → Except AsrError String
  | [], acc => .ok acc
  | .text (.error e) :: _, _ => .error (.api ("解析响应失败: " ++ e))
  | .text (.ok r) :: rest, acc =>
    match r.header.error_code with
    | some code => .error (.api (code ++ ": " ++ r.header.error_message.getD ""))
    | none =>
      if r.header.event = "result-generated" then
        let acc2 :=
          match r.payload with
          | some payload =>
            match payload.output with
            | some output =>
              match output.sentence with
              | some sentence => ds_sentence_step acc sentence
              | none => acc
            | none => acc
          | none => acc
        ds_collect_results rest acc2
      else if r.header.event = "task-finished" then .ok acc
      else ds_collect_results rest acc
  | .close :: _, acc => .ok acc
  | .sockErr e :: _, _ => .error (.network e)
  | .other :: rest, acc => ds_collect_results rest acc

/-- dashscope.rs lines 95-274: `DashScopeAsr::recognize`.  Connect, send
`run-task`, wait for `task-started`, stream the audio in
`sample_rate * 2 / 10`-byte chunks, send `finish-task`, collect results. -/
def DashScopeAsr.recognize (io : DsIo) (audio_data : List ℕ) (sample_rate : ℕ) :
    Except AsrError AsrResult × List SentFrame :=
  match io.connect with
  | .error e => (.error (.network ("WebSocket 连接失败: " ++ e)), [])
  | .ok _ =>
    let sent0 := [SentFrame.textFrame "run-task"]
    match waitTaskStarted io.msgs with
    | .error e => (.error e, sent0)
    | .ok (task_started, rest) =>
      if !task_started then (.error (.api "未收到 task-started 事件"), sent0)
      else
        let chunk_size := sample_rate * 2 / 10
        let sent1 := sent0 ++ (chunksOf chunk_size audio_data).map SentFrame.audioFrame
            ++ [SentFrame.textFrame "finish-task"]
        match ds_collect_results rest "" with
        | .error e => (.error e, sent1)
        | .ok final_text => (.ok ⟨final_text, true⟩, sent1)

/-! ### Qwen realtime conversational client (`asr/qwen.rs`) -/

/-- qwen.rs lines 81-84. -/
structure ErrorInfo where
  message : String
  deriving DecidableEq

/-- qwen.rs lines 73-79. -/
structure ResponseEvent where
  event_type : String
  transcript : Option String
  error : Option ErrorInfo
  deriving DecidableEq

/-- Environment of one Qwen `recognize` call. -/
structure QwenIo where
  connect : Except String Unit
  msgs : List (WsIncoming ResponseEvent)

/-- qwen.rs lines 141-168: the wait-for-session-ready loop. -/
def waitSessionReady :
    List (WsIncoming ResponseEvent) →
      Except AsrError (Bool × List (WsIncoming ResponseEvent))
  | [] => .ok (false, [])
  | .text (.error e) :: _ => .error (.api ("解析响应失败: " ++ e))
  | .text (.ok r) :: rest =>
    match r.error with
    | some err => .error (.api err.message)
    | none =>
      if r.event_type = "session.created" || r.event_type = "session.updated" then
        .ok (true, rest)
      else waitSessionReady rest
  | .close :: _ => .error (.network "WebSocket 连接被关闭")
  | .sockErr e :: _ => .error (.network e)
  | .other :: rest => waitSessionReady rest

/-- qwen.rs lines 213-255: the result-collection loop. -/
def qwen_collect :
    List (WsIncoming ResponseEvent) → String → Except AsrError String
  | [], acc => .ok acc
  | .text (.error e) :: _, _ => .error (.api ("解析响应失败: " ++ e))
  | .text (.ok r) :: rest, acc =>
    match r.error with
    | some err => .error (.api err.message)
    | none =>
      if r.event_type = "conversation.item.input_audio_transcription.completed" then
        .ok (match r.transcript with | some t => t | none => acc)
      else if r.event_type = "conversation.item.input_audio_transcription.text" then
        qwen_collect rest (match r.transcript with | some t => t | none => acc)
      else
        -- the source's "error" event arm re-checks `r.error`, which is `none` here
        qwen_collect rest acc
  | .close :: _, acc => .ok acc
  | .sockErr e :: _, _ => .error (.network e)
  | .other :: rest, acc => qwen_collect rest acc

/-- qwen.rs lines 88-261: `QwenAsr::recognize`.  Connect, send
`session.update`, wait for session confirmation, reject empty audio, stream
the audio in fixed 3200-byte chunks (the reported sample rate is ignored:
the parameter is `_sample_rate` in the source), send the commit event,
collect results. -/
def QwenAsr.recognize (io : QwenIo) (audio_data : List ℕ) (_sample_rate : ℕ) :
    Except AsrError AsrResult × List SentFrame :=
  match io.connect with
  | .error e => (.error (.network ("WebSocket 连接失败: " ++ e)), [])
  | .ok _ =>
    let sent0 := [SentFrame.textFrame "session.update"]
    match waitSessionReady io.msgs with
    | .error e => (.error e, sent0)
    | .ok (session_ready, rest) =>
      if !session_ready then (.error (.api "未收到 session 确认事件"), sent0)
      else if audio_data.isEmpty then (.error (.encoding "音频数据为空"), sent0)
      else
        let chunk_size := 3200
        let sent1 := sent0 ++ (chunksOf chunk_size audio_data).map SentFrame.audioFrame
            ++ [SentFrame.textFrame "input_audio_buffer.commit"]
        match qwen_collect rest "" with
        | .error e => (.error e, sent1)
        | .ok final_text => (.ok ⟨final_text, true⟩, sent1)

/-! ### FunASR local streaming client (`asr/funasr.rs`) -/

/-- A wire message from the local service as an abstract JSON object that
deserializes successfully into `FunAsrResponse`.  Besides the three fields the
client declares, it carries a representative remote error code/message pair:
serde drops unknown fields, so these are discarded by deserialization —
exactly what funasr.rs line 124 does. -/
structure FunAsrWireMsg where
  text : Option String
  is_final : Bool
  mode : Option String
  error_code : Option String
  error_message : Option String
  deriving DecidableEq

/-- funasr.rs lines 54-60. -/
structure FunAsrResponse where
  text : Option String
  is_final : Bool
  mode : Option String
  deriving DecidableEq

/-- serde deserialization of a wire message into `FunAsrResponse` (funasr.rs
line 124): the declared fields are read, everything else is dropped. -/
def parse_funasr_response (m : FunAsrWireMsg) : FunAsrResponse :=
  ⟨m.text, m.is_final, m.mode⟩

/-- Environment of one FunASR `recognize` call. -/
structure FunIo where
  connect : Except String Unit
  msgs : List (WsIncoming FunAsrWireMsg)

/-- funasr.rs lines 118-147: the result-collection loop.  Each message's
`text` overwrites the cumulative transcript; the loop stops on a final flag or
offline-mode marker, on close, or on a socket error (tolerated only when the
transcript is non-empty). -/
def funasr_collect :
    List (WsIncoming FunAsrWireMsg) → String → Except AsrError String
  | [], acc => .ok acc
  | .text (.error _) :: rest, acc => funasr_collect rest acc
  | .text (.ok m) :: rest, acc =>
    let response := parse_funasr_response m
    let acc2 := match response.text with | some t => t | none => acc
    if response.is_final || response.mode = some "offline" then .ok acc2
    else funasr_collect rest acc2
  | .close :: _, acc => .ok acc
  | .sockErr e :: _, acc => if acc.isEmpty then .error (.network e) else .ok acc
  | .other :: rest, acc => funasr_collect rest acc

/-- funasr.rs lines 64-153: `FunAsr::recognize`.  Connect (over permissive
TLS), send the start descriptor, stream the audio in `sample_rate * 2 / 5`-byte
chunks, send the end descriptor, collect results. -/
def FunAsr.recognize (io : FunIo) (audio_data : List ℕ) (sample_rate : ℕ) :
    Except AsrError AsrResult × List SentFrame :=
  match io.connect with
  | .error e => (.error (.network ("WebSocket 连接失败: " ++ e)), [])
  | .ok _ =>
    let chunk_size := sample_rate * 2 / 5
    let sent := [SentFrame.textFrame "start"]
        ++ (chunksOf chunk_size audio_data).map SentFrame.audioFrame
        ++ [SentFrame.textFrame "end"]
    match funasr_collect io.msgs "" with
    | .error e => (.error e, sent)
    | .ok final_text => (.ok ⟨final_text, true⟩, sent)

/-! ## Hotkey press/release debouncer (`hotkey/macos.rs`, `hotkey/windows.rs`)

Both platforms feed a sequence of key-state observations (is the bound
combination currently satisfied?) into the same two-boolean debouncer.  The
macOS observer additionally records the frontmost application pid on a rising
edge. -/

/-- A pipeline trigger fired by the debouncer. -/
inductive HotkeyAction
  | start
  | stop
  deriving DecidableEq

/-- The debouncer's shared state: `is_key_pressed` and `is_recording` atomics
plus (on macOS) the captured `original_app_pid` (initialised to `-1`). -/
structure HotkeyState where
  is_key_pressed : Bool
  is_recording : Bool
  original_app_pid : ℤ
  deriving DecidableEq

/-- The initial debouncer state (macos.rs lines 121-123, windows.rs 117-118). -/
def hotkeyInit : HotkeyState := ⟨false, false, -1⟩

/-- macos.rs lines 297-338: `handle_key_state_change`, as a pure step on the
debouncer state taking the current key-state observation and the frontmost
pid observed at that moment.  Returns the triggers fired. -/
def handle_key_state_change (key_pressed : Bool) (frontmost_pid : ℤ)
    (st : HotkeyState) : HotkeyState × List HotkeyAction :=
  let was_pressed := st.is_key_pressed
  if key_pressed && !was_pressed then
    let st1 := { st with is_key_pressed := true }
    if !st1.is_recording then
      ({ st1 with is_recording := true, original_app_pid := frontmost_pid },
        [HotkeyAction.start])
    else (st1, [])
  else if !key_pressed && was_pressed then
    let st1 := { st with is_key_pressed := false }
    if st1.is_recording then
      ({ st1 with is_recording := false }, [HotkeyAction.stop])
    else (st1, [])
  else (st, [])

/-- windows.rs lines 147-171: one iteration of the polling loop after
`hotkey_active` has been computed, identical debouncing without pid capture. -/
def windows_poll_step (hotkey_active : Bool) (st : HotkeyState) :
    HotkeyState × List HotkeyAction :=
  let was_pressed := st.is_key_pressed
  if hotkey_active && !was_pressed then
    let st1 := { st with is_key_pressed := true }
    if !st1.is_recording then
      ({ st1 with is_recording := true }, [HotkeyAction.start])
    else (st1, [])
  else if !hotkey_active && was_pressed then
    let st1 := { st with is_key_pressed := false }
    if st1.is_recording then
      ({ st1 with is_recording := false }, [HotkeyAction.stop])
    else (st1, [])
  else (st, [])

/-- Run the macOS debouncer over a sequence of (key-state, frontmost-pid)
observations, concatenating the fired triggers. -/
def run_macos_debouncer (st : HotkeyState) :
    List (Bool × ℤ) → List HotkeyAction
  | [] => []
  | (b, pid) :: rest =>
    let out := handle_key_state_change b pid st
    out.2 ++ run_macos_debouncer out.1 rest

/-- Run the Windows polling debouncer over a sequence of key-state
observations. -/
def run_windows_debouncer (st : HotkeyState) : List Bool → List HotkeyAction
  | [] => []
  | b :: rest =>
    let out := windows_poll_step b st
    out.2 ++ run_windows_debouncer out.1 rest

/-- The triggers demanded by the spec's words: one `start` per rising edge of
the observation sequence (w.r.t. the previous observed state `prev`), one
`stop` per falling edge. -/
def edge_actions (prev : Bool) : List Bool → List HotkeyAction
  | [] => []
  | b :: rest =>
    (if b && !prev then [HotkeyAction.start]
     else if !b && prev then [HotkeyAction.stop]
     else []) ++ edge_actions b rest

/-- Strict start/stop alternation: when `expectStop` is false the next trigger
must be a `start`, and conversely — so two `start`s can never occur without an
intervening `stop`. -/
def alternates_from : Bool → List HotkeyAction → Prop
  | _, [] => True
  | expectStop, a :: rest =>
    a = (if expectStop then HotkeyAction.stop else HotkeyAction.start) ∧
      alternates_from (!expectStop) rest

/-! ## Shared concrete fixtures for witnesses and counterexamples -/

/-- A benign configuration using a PCM provider, refinement off. -/
def sampleConfig : AppConfigCore := ⟨"FunAsr", false, false, 0⟩

/-- A pipeline environment where every boundary call succeeds. -/
def sampleEnv : PipeEnv where
  config := sampleConfig
  stop_device := .ok ()
  encode_to_wav := fun _ _ _ => .ok []
  encode_to_pcm := fun _ => [7, 7]
  create_asr := .ok ()
  recognize := fun _ _ => .ok ⟨"hello", true⟩
  create_llm := .ok none
  refine_text := fun t => .ok t
  output_text := fun _ _ _ _ => .ok ()

/-- A recorder mid-recording with an empty buffer. -/
def emptyRecorder : AudioRecorder := ⟨.recording, [], 16000, 1⟩

/-- A recorder mid-recording holding one loud sample (|s| = 0.2). -/
def loudRecorder : AudioRecorder := ⟨.recording, [0.2], 16000, 1⟩

/-! ## Pipeline theorems -/

/-- In every branch, the gated continuation's first boundary event is an
encoding event. -/
theorem process_gated_events_head (env : PipeEnv) (pid : Option ℤ)
    (samples : List ℚ) (rec : AudioRecorder) :
    (process_gated env pid samples rec).events.head? = some PipeEvent.encodeWav ∨
      (process_gated env pid samples rec).events.head? = some PipeEvent.encodePcm := by
  unfold process_gated
  by_cases h : env.config.asr_provider = "OpenAIWhisper"
  · left
    simp only [h, reduceIte]
    cases hw : (env.encode_to_wav samples rec.sample_rate rec.channels).mapError
        AudioError.encode with
    | error e => simp [hw]
    | ok ad =>
      simp only [hw]
      cases hca : env.create_asr with
      | error e => simp [hca]
      | ok u =>
        simp only [hca]
        cases hrec : env.recognize ad rec.sample_rate with
        | error e => simp [hrec]
        | ok r =>
          simp only [hrec]
          split <;> (try split) <;> (try split) <;> simp
  · right
    simp only [h, reduceIte]
    cases hca : env.create_asr with
    | error e => simp [hca]
    | ok u =>
      simp only [hca]
      cases hrec : env.recognize (env.encode_to_pcm samples) rec.sample_rate with
      | error e => simp [hrec]
      | ok r =>
        simp only [hrec]
        split <;> (try split) <;> (try split) <;> simp

/-- C2: an empty drained buffer yields a successful empty result and no
boundary calls at all (no encoding, recognition, refinement or output). -/
theorem empty_buffer_returns_empty (env : PipeEnv) (pid : Option ℤ)
    (rec : AudioRecorder)
    (hdev : env.stop_device = .ok ()) (hbuf : rec.buffer = []) :
    (stop_and_process env pid rec).result = .ok "" ∧
      (stop_and_process env pid rec).events = [] := by
  simp [stop_and_process, AudioRecorder.stop, hdev, hbuf]

/-- Witness for C2 at a concrete environment and recorder. -/
theorem empty_buffer_returns_empty_witness :
    (stop_and_process sampleEnv none emptyRecorder).result = .ok "" ∧
      (stop_and_process sampleEnv none emptyRecorder).events = [] :=
  empty_buffer_returns_empty sampleEnv none emptyRecorder rfl rfl

/-- C1: for a successfully drained non-empty buffer the amplitude gate is a
pure function of the samples — peak < 0.001 gives the permission/silence
error, 0.001 ≤ peak < 0.05 the too-quiet error, and peak ≥ 0.05 proceeds to
encoding; the entire output (result, recorder, events) is determined in the
first two cases, independent of all other environment state. -/
theorem amplitude_gating (env : PipeEnv) (pid : Option ℤ) (rec : AudioRecorder)
    (samples : List ℚ)
    (hdev : env.stop_device = .ok ()) (hbuf : rec.buffer = samples)
    (hne : samples ≠ []) :
    (max_amplitude samples < 0.001 →
      stop_and_process env pid rec =
        ⟨.error (.other silence_error_msg),
          { rec with state := .idle, buffer := [] }, []⟩) ∧
    (0.001 ≤ max_amplitude samples → max_amplitude samples < 0.05 →
      stop_and_process env pid rec =
        ⟨.error (.other quiet_error_msg),
          { rec with state := .idle, buffer := [] }, []⟩) ∧
    (0.05 ≤ max_amplitude samples →
      stop_and_process env pid rec =
        process_gated env pid samples { rec with state := .idle, buffer := [] } ∧
      ((stop_and_process env pid rec).events.head? = some PipeEvent.encodeWav ∨
        (stop_and_process env pid rec).events.head? = some PipeEvent.encodePcm)) := by
  have hne2 : samples.isEmpty = false := by simpa [List.isEmpty_iff] using hne
  have h0 : stop_and_process env pid rec =
      (if max_amplitude samples < 0.001 then
        ⟨.error (.other silence_error_msg),
          { rec with state := .idle, buffer := [] }, []⟩
      else if max_amplitude samples < 0.05 then
        ⟨.error (.other quiet_error_msg),
          { rec with state := .idle, buffer := [] }, []⟩
      else process_gated env pid samples { rec with state := .idle, buffer := [] }) := by
    simp [stop_and_process, AudioRecorder.stop, hdev, hbuf, hne2]
  refine ⟨fun h1 => ?_, fun hge hlt => ?_, fun hge => ?_⟩
  · rw [h0, if_pos h1]
  · rw [h0, if_neg (not_lt.mpr hge), if_pos hlt]
  · have hn1 : ¬ max_amplitude samples < 0.001 :=
      not_lt.mpr (le_trans (by norm_num) hge)
    have hn2 : ¬ max_amplitude samples < 0.05 := not_lt.mpr hge
    refine ⟨by rw [h0, if_neg hn1, if_neg hn2], ?_⟩
    rw [h0, if_neg hn1, if_neg hn2]
    exact process_gated_events_head env pid samples _

/-- Peak amplitude of a one-sample buffer with a nonnegative sample. -/
theorem max_amplitude_singleton (q : ℚ) (h : 0 ≤ q) : max_amplitude [q] = q := by
  simp [max_amplitude, abs_of_nonneg h, max_eq_right h]

/-- Witness for C1 at a concrete loud buffer (|sample| = 0.2 ≥ 0.05). -/
theorem amplitude_gating_witness :
    stop_and_process sampleEnv none loudRecorder =
      process_gated sampleEnv none [0.2]
        { loudRecorder with state := .idle, buffer := [] } ∧
    ((stop_and_process sampleEnv none loudRecorder).events.head? =
        some PipeEvent.encodeWav ∨
      (stop_and_process sampleEnv none loudRecorder).events.head? =
        some PipeEvent.encodePcm) :=
  (amplitude_gating sampleEnv none loudRecorder [0.2] rfl rfl
      (by simp)).2.2
    (by rw [max_amplitude_singleton 0.2 (by norm_num)]; norm_num)

/-- In every branch, the gated continuation leaves the recorder untouched. -/
theorem process_gated_recorder (env : PipeEnv) (pid : Option ℤ)
    (samples : List ℚ) (rec : AudioRecorder) :
    (process_gated env pid samples rec).recorder = rec := by
  simp only [process_gated]
  repeat' split
  all_goals rfl

/-- The post-drain pipeline errors: the two amplitude-gate failures, encoding
failures, recognition errors, refinement errors and output errors — every
error `stop_and_process` can return except a capture-device failure of the
drain itself. -/
def post_drain_error : PipelineError → Prop
  | .audio (.device _) => False
  | .audio (.encode _) => True
  | .asr _ => True
  | .llm _ => True
  | .output _ => True
  | .other m => m = silence_error_msg ∨ m = quiet_error_msg

/-- C9: whenever `stop_and_process` returns one of the post-drain errors
(amplitude gate, encoding, recognition, refinement, output), the recorder has
already been transitioned to Idle with its buffer drained. -/
theorem error_paths_after_idle (env : PipeEnv) (pid : Option ℤ)
    (rec : AudioRecorder) (e : PipelineError)
    (herr : (stop_and_process env pid rec).result = .error e)
    (hpost : post_drain_error e) :
    (stop_and_process env pid rec).recorder.state = .idle ∧
      (stop_and_process env pid rec).recorder.buffer = [] := by
  cases hdev : env.stop_device with
  | error m =>
    have h0 : stop_and_process env pid rec =
        ⟨.error (.audio (.device m)), rec, []⟩ := by
      simp [stop_and_process, AudioRecorder.stop, hdev]
    rw [h0] at herr
    simp only [PipeOut.result] at herr
    have he : e = .audio (.device m) := by
      cases herr; rfl
    rw [he] at hpost
    exact hpost.elim
  | ok u =>
    have hr : (stop_and_process env pid rec).recorder =
        { rec with state := .idle, buffer := [] } := by
      cases u
      simp only [stop_and_process, AudioRecorder.stop, hdev]
      split <;> (try split) <;> (try split) <;>
        first
          | rfl
          | exact process_gated_recorder env pid _ _
    rw [hr]
    exact ⟨rfl, rfl⟩

/-- A recorder mid-recording holding one all-zero sample (peak 0 < 0.001). -/
def silentRecorder : AudioRecorder := ⟨.recording, [0], 16000, 1⟩

/-- Witness for C9 at a concrete silent capture (amplitude-gate error). -/
theorem error_paths_after_idle_witness :
    (stop_and_process sampleEnv none silentRecorder).recorder.state = .idle ∧
      (stop_and_process sampleEnv none silentRecorder).recorder.buffer = [] :=
  error_paths_after_idle sampleEnv none silentRecorder
    (.other silence_error_msg)
    (by
      have h : max_amplitude [(0 : ℚ)] < 0.001 := by
        rw [max_amplitude_singleton 0 le_rfl]; norm_num
      simp [stop_and_process, AudioRecorder.stop, silentRecorder, sampleEnv, h])
    (Or.inl rfl)

/-! ## Hotkey debouncer theorems -/

/-- One macOS debouncer step under the lockstep invariant: the fired triggers
are exactly the edge of the observation, and both booleans end equal to the
observed key state. -/
theorem handle_key_state_change_spec (b : Bool) (pid : ℤ) (st : HotkeyState)
    (h : st.is_recording = st.is_key_pressed) :
    (handle_key_state_change b pid st).2 =
      (if b && !st.is_key_pressed then [HotkeyAction.start]
       else if !b && st.is_key_pressed then [HotkeyAction.stop] else []) ∧
    (handle_key_state_change b pid st).1.is_key_pressed = b ∧
    (handle_key_state_change b pid st).1.is_recording = b := by
  cases hb : b <;> cases hkp : st.is_key_pressed <;>
    simp [handle_key_state_change, hkp, h.trans hkp]

/-- One Windows polling step under the lockstep invariant. -/
theorem windows_poll_step_spec (b : Bool) (st : HotkeyState)
    (h : st.is_recording = st.is_key_pressed) :
    (windows_poll_step b st).2 =
      (if b && !st.is_key_pressed then [HotkeyAction.start]
       else if !b && st.is_key_pressed then [HotkeyAction.stop] else []) ∧
    (windows_poll_step b st).1.is_key_pressed = b ∧
    (windows_poll_step b st).1.is_recording = b := by
  cases hb : b <;> cases hkp : st.is_key_pressed <;>
    simp [windows_poll_step, hkp, h.trans hkp]

/-- The macOS debouncer run from any lockstep state fires exactly the edge
triggers of the observation sequence. -/
theorem run_macos_debouncer_eq_edges (obs : List (Bool × ℤ)) :
    ∀ st : HotkeyState, st.is_recording = st.is_key_pressed →
      run_macos_debouncer st obs = edge_actions st.is_key_pressed (obs.map Prod.fst) := by
  induction obs with
  | nil => intro st h; rfl
  | cons p rest ih =>
    intro st h
    obtain ⟨b, pid⟩ := p
    obtain ⟨hacts, hkp, hrec⟩ := handle_key_state_change_spec b pid st h
    simp only [run_macos_debouncer, edge_actions, List.map_cons]
    rw [hacts, ih (handle_key_state_change b pid st).1 (hrec.trans hkp.symm), hkp]

/-- The Windows debouncer run from any lockstep state fires exactly the edge
triggers of the observation sequence. -/
theorem run_windows_debouncer_eq_edges (obs : List Bool) :
    ∀ st : HotkeyState, st.is_recording = st.is_key_pressed →
      run_windows_debouncer st obs = edge_actions st.is_key_pressed obs := by
  induction obs with
  | nil => intro st h; rfl
  | cons b rest ih =>
    intro st h
    obtain ⟨hacts, hkp, hrec⟩ := windows_poll_step_spec b st h
    simp only [run_windows_debouncer, edge_actions]
    rw [hacts, ih (windows_poll_step b st).1 (hrec.trans hkp.symm), hkp]

/-- Edge triggers strictly alternate start/stop. -/
theorem edge_actions_alternates (obs : List Bool) :
    ∀ prev : Bool, alternates_from prev (edge_actions prev obs) := by
  induction obs with
  | nil => intro prev; trivial
  | cons b rest ih =>
    intro prev
    cases hb : b <;> cases hp : prev <;>
      simp [edge_actions, alternates_from, ih]

/-- C8: on both platforms, the debouncer run from the initial state triggers
`start_recording` exactly once per rising edge and `stop_and_process` exactly
once per falling edge of the key-state observation sequence, and the fired
triggers strictly alternate — two starts never occur without an intervening
stop. -/
theorem debouncer_fires_exactly_on_edges :
    (∀ obs : List (Bool × ℤ),
      run_macos_debouncer hotkeyInit obs = edge_actions false (obs.map Prod.fst)) ∧
    (∀ obs : List Bool,
      run_windows_debouncer hotkeyInit obs = edge_actions false obs) ∧
    (∀ obs : List (Bool × ℤ),
      alternates_from false (run_macos_debouncer hotkeyInit obs)) ∧
    (∀ obs : List Bool,
      alternates_from false (run_windows_debouncer hotkeyInit obs)) := by
  refine ⟨fun obs => run_macos_debouncer_eq_edges obs hotkeyInit rfl,
    fun obs => run_windows_debouncer_eq_edges obs hotkeyInit rfl,
    fun obs => ?_, fun obs => ?_⟩
  · rw [run_macos_debouncer_eq_edges obs hotkeyInit rfl]
    exact edge_actions_alternates (obs.map Prod.fst) false
  · rw [run_windows_debouncer_eq_edges obs hotkeyInit rfl]
    exact edge_actions_alternates obs false

/-! ## ASR client theorems -/

/-- A DashScope session whose server acknowledges the task and finishes
without results. -/
def dsIoOk : DsIo :=
  ⟨.ok (), [.text (.ok ⟨⟨"task-started", none, none⟩, none⟩),
    .text (.ok ⟨⟨"task-finished", none, none⟩, none⟩)]⟩

/-- A Qwen session whose server confirms the session and completes with
transcript "hi". -/
def qwenIoOk : QwenIo :=
  ⟨.ok (), [.text (.ok ⟨"session.created", none, none⟩),
    .text (.ok ⟨"conversation.item.input_audio_transcription.completed",
      some "hi", none⟩)]⟩

/-- A FunASR session whose server sends one final message with text "hey". -/
def funIoOk : FunIo :=
  ⟨.ok (), [.text (.ok ⟨some "hey", true, none, none, none⟩)]⟩

/-- C10: every successful `recognize` result of any of the three provider
clients carries `is_final = true`, whatever the incoming message sequence. -/
theorem recognize_result_always_final :
    (∀ (io : DsIo) (audio_data : List ℕ) (sample_rate : ℕ) (r : AsrResult),
      (DashScopeAsr.recognize io audio_data sample_rate).1 = .ok r →
        r.is_final = true) ∧
    (∀ (io : QwenIo) (audio_data : List ℕ) (sample_rate : ℕ) (r : AsrResult),
      (QwenAsr.recognize io audio_data sample_rate).1 = .ok r →
        r.is_final = true) ∧
    (∀ (io : FunIo) (audio_data : List ℕ) (sample_rate : ℕ) (r : AsrResult),
      (FunAsr.recognize io audio_data sample_rate).1 = .ok r →
        r.is_final = true) := by
  refine ⟨fun io audio_data sample_rate r h => ?_,
    fun io audio_data sample_rate r h => ?_,
    fun io audio_data sample_rate r h => ?_⟩
  · unfold DashScopeAsr.recognize at h
    cases hc : io.connect with
    | error e => simp [hc] at h
    | ok u =>
      simp only [hc] at h
      cases hw : waitTaskStarted io.msgs with
      | error e => simp [hw] at h
      | ok p =>
        obtain ⟨b, rest⟩ := p
        simp only [hw] at h
        cases b with
        | false => simp at h
        | true =>
          cases hcol : ds_collect_results rest "" with
          | error e => simp [hcol] at h
          | ok t =>
            simp [hcol] at h
            rw [← h]
  · unfold QwenAsr.recognize at h
    cases hc : io.connect with
    | error e => simp [hc] at h
    | ok u =>
      simp only [hc] at h
      cases hw : waitSessionReady io.msgs with
      | error e => simp [hw] at h
      | ok p =>
        obtain ⟨b, rest⟩ := p
        simp only [hw] at h
        cases b with
        | false => simp at h
        | true =>
          cases hemp : audio_data.isEmpty with
          | true => simp [hemp] at h
          | false =>
            cases hcol : qwen_collect rest "" with
            | error e => simp [hemp, hcol] at h
            | ok t =>
              simp [hemp, hcol] at h
              rw [← h]
  · unfold FunAsr.recognize at h
    cases hc : io.connect with
    | error e => simp [hc] at h
    | ok u =>
      simp only [hc] at h
      cases hcol : funasr_collect io.msgs "" with
      | error e => simp [hcol] at h
      | ok t =>
        simp [hcol] at h
        rw [← h]

/-- Witness for C10: a concrete successful run of each client. -/
theorem recognize_result_always_final_witness :
    ((DashScopeAsr.recognize dsIoOk [] 16000).1 = .ok ⟨"", true⟩ ∧
      (AsrResult.mk "" true).is_final = true) ∧
    ((QwenAsr.recognize qwenIoOk [1] 16000).1 = .ok ⟨"hi", true⟩ ∧
      (AsrResult.mk "hi" true).is_final = true) ∧
    ((FunAsr.recognize funIoOk [] 16000).1 = .ok ⟨"hey", true⟩ ∧
      (AsrResult.mk "hey" true).is_final = true) :=
  ⟨⟨rfl, recognize_result_always_final.1 dsIoOk [] 16000 ⟨"", true⟩ rfl⟩,
    ⟨rfl, recognize_result_always_final.2.1 qwenIoOk [1] 16000 ⟨"hi", true⟩ rfl⟩,
    ⟨rfl, recognize_result_always_final.2.2 funIoOk [] 16000 ⟨"hey", true⟩ rfl⟩⟩

/-- Mapping chunks to audio frames and filtering them back is the identity. -/
theorem filterMap_audioBytes_map (cs : List (List ℕ)) :
    List.filterMap (SentFrame.audioBytes ∘ SentFrame.audioFrame) cs = cs := by
  induction cs with
  | nil => rfl
  | cons c rest ih =>
    simp [List.filterMap_cons, SentFrame.audioBytes, Function.comp, ih]

/-- The audio chunks among the frames a client sends are exactly the chunk
list it was given (the surrounding JSON command frames carry no audio). -/
theorem audio_frames_sent (a b : String) (cs : List (List ℕ)) :
    audio_frames ([SentFrame.textFrame a] ++ cs.map SentFrame.audioFrame
      ++ [SentFrame.textFrame b]) = cs := by
  simp [audio_frames, List.filterMap_append, List.filterMap_cons,
    SentFrame.audioBytes, filterMap_audioBytes_map]

/-- C3 counterexample: at reported sample rate 10 the realtime conversational
client still chunks at its fixed 3200-byte boundary — the audio [1, 2, 3] goes
out as one frame, not as the 2-byte (100 ms at rate 10) chunks
[[1, 2], [3]] the claim demands. -/
theorem qwen_chunk_size_counterexample :
    audio_frames (QwenAsr.recognize qwenIoOk [1, 2, 3] 10).2 = [[1, 2, 3]] ∧
    audio_frames (QwenAsr.recognize qwenIoOk [1, 2, 3] 10).2 ≠
      chunksOf (10 * 2 / 10) [1, 2, 3] := by
  exact ⟨rfl, by decide⟩

/-- C3 amended: the DashScope-style client chunks at `sample_rate * 2 / 10`
bytes (100 ms) and the local streaming client at `sample_rate * 2 / 5` bytes
(200 ms), both derived from the reported rate; the realtime conversational
client instead streams at a fixed 3200-byte boundary (100 ms only at 16 kHz),
ignoring the reported rate. -/
theorem stream_chunk_sizes (audio_data : List ℕ) (sample_rate : ℕ) :
    (∀ io : DsIo, io.connect = .ok () →
      ∀ rest, waitTaskStarted io.msgs = .ok (true, rest) →
        audio_frames (DashScopeAsr.recognize io audio_data sample_rate).2 =
          chunksOf (sample_rate * 2 / 10) audio_data) ∧
    (∀ io : FunIo, io.connect = .ok () →
      audio_frames (FunAsr.recognize io audio_data sample_rate).2 =
        chunksOf (sample_rate * 2 / 5) audio_data) ∧
    (∀ io : QwenIo, io.connect = .ok () →
      ∀ rest, waitSessionReady io.msgs = .ok (true, rest) →
        audio_data ≠ [] →
          audio_frames (QwenAsr.recognize io audio_data sample_rate).2 =
            chunksOf 3200 audio_data) := by
  refine ⟨fun io hconn rest hwait => ?_, fun io hconn => ?_,
    fun io hconn rest hwait hne => ?_⟩
  · unfold DashScopeAsr.recognize
    simp only [hconn, hwait, Bool.not_true]
    cases hcol : ds_collect_results rest "" <;>
      simp [hcol, audio_frames, List.filterMap_cons, List.filterMap_append,
        SentFrame.audioBytes, filterMap_audioBytes_map]
  · unfold FunAsr.recognize
    simp only [hconn]
    cases hcol : funasr_collect io.msgs "" <;>
      simp [hcol, audio_frames, List.filterMap_cons, List.filterMap_append,
        SentFrame.audioBytes, filterMap_audioBytes_map]
  · have hemp : audio_data.isEmpty = false := by
      simpa [List.isEmpty_iff] using hne
    unfold QwenAsr.recognize
    simp only [hconn, hwait, Bool.not_true, hemp]
    cases hcol : qwen_collect rest "" <;>
      simp [hcol, audio_frames, List.filterMap_cons, List.filterMap_append,
        SentFrame.audioBytes, filterMap_audioBytes_map]

/-- Witness for the amended C3 at a concrete rate (16 kHz) and audio. -/
theorem stream_chunk_sizes_witness :
    audio_frames (DashScopeAsr.recognize dsIoOk [1, 2, 3] 16000).2 =
      chunksOf (16000 * 2 / 10) [1, 2, 3] ∧
    audio_frames (FunAsr.recognize funIoOk [1, 2, 3] 16000).2 =
      chunksOf (16000 * 2 / 5) [1, 2, 3] ∧
    audio_frames (QwenAsr.recognize qwenIoOk [1, 2, 3] 16000).2 =
      chunksOf 3200 [1, 2, 3] :=
  ⟨(stream_chunk_sizes [1, 2, 3] 16000).1 dsIoOk rfl _ rfl,
    (stream_chunk_sizes [1, 2, 3] 16000).2.1 funIoOk rfl,
    (stream_chunk_sizes [1, 2, 3] 16000).2.2 qwenIoOk rfl _ rfl (by simp)⟩

/-! ### C6: DashScope result collection -/

/-- A `task-started` acknowledgment frame. -/
def dsTaskStartedFrame : WsIncoming WsResponse :=
  .text (.ok ⟨⟨"task-started", none, none⟩, none⟩)

/-- A `task-finished` completion frame. -/
def dsTaskFinishedFrame : WsIncoming WsResponse :=
  .text (.ok ⟨⟨"task-finished", none, none⟩, none⟩)

/-- A `result-generated` frame carrying sentence text `t` with sentence-end
flag `e`. -/
def ds_rg_frame (t : String) (e : Bool) : WsIncoming WsResponse :=
  .text (.ok ⟨⟨"result-generated", none, none⟩, some ⟨some ⟨some ⟨some t, e⟩⟩⟩⟩)

/-- A session delivering two non-final sentence texts "a" then "b" before
`task-finished`. -/
def dsIoSeq : DsIo :=
  ⟨.ok (), [dsTaskStartedFrame, ds_rg_frame "a" false, ds_rg_frame "b" false,
    dsTaskFinishedFrame]⟩

/-- C6 counterexample: after non-final sentence texts "a" then "b", the
DashScope client returns "a" (the first text, kept because later non-final
texts never overwrite a non-empty accumulator), not the latest text "b" the
claim demands. -/
theorem ds_latest_text_counterexample :
    (DashScopeAsr.recognize dsIoSeq [] 16000).1 = .ok ⟨"a", true⟩ ∧
      (DashScopeAsr.recognize dsIoSeq [] 16000).1 ≠ .ok ⟨"b", true⟩ :=
  ⟨rfl, by decide⟩

/-- Running the collection loop over `result-generated` frames folds
`ds_sentence_step` over the sentences and stops at `task-finished`. -/
theorem ds_collect_run (rest : List (WsIncoming WsResponse)) :
    ∀ (sentences : List (String × Bool)) (acc : String),
      ds_collect_results
          ((sentences.map fun p => ds_rg_frame p.1 p.2)
            ++ dsTaskFinishedFrame :: rest) acc =
        .ok (sentences.foldl (fun a p => ds_sentence_step a ⟨some p.1, p.2⟩) acc) := by
  intro sentences
  induction sentences with
  | nil => intro acc; rfl
  | cons p ps ih =>
    intro acc
    obtain ⟨t, e⟩ := p
    exact ih (ds_sentence_step acc ⟨some t, e⟩)

/-- C6 amended: in the DashScope result-collection phase, the returned
transcript is the fold of the code's update rule over the received sentences —
a sentence-end text always overwrites the accumulator, while a text not
flagged sentence-end is kept only when the accumulator is still empty (so the
latest sentence-end text wins, and absent any sentence-end text the first
received text is kept, not the latest). -/
theorem ds_result_collection (io : DsIo) (audio_data : List ℕ)
    (sample_rate : ℕ) (sentences : List (String × Bool))
    (rest : List (WsIncoming WsResponse))
    (hconn : io.connect = .ok ())
    (hmsgs : io.msgs = dsTaskStartedFrame ::
      ((sentences.map fun p => ds_rg_frame p.1 p.2)
        ++ dsTaskFinishedFrame :: rest)) :
    (DashScopeAsr.recognize io audio_data sample_rate).1 =
      .ok ⟨sentences.foldl (fun a p => ds_sentence_step a ⟨some p.1, p.2⟩) "",
        true⟩ := by
  have hwait : waitTaskStarted io.msgs =
      .ok (true, (sentences.map fun p => ds_rg_frame p.1 p.2)
        ++ dsTaskFinishedFrame :: rest) := by
    rw [hmsgs]; rfl
  unfold DashScopeAsr.recognize
  simp [hconn, hwait, ds_collect_run]

/-- Witness for the amended C6 on the concrete session "a", "b" (both
non-final): the fold yields "a". -/
theorem ds_result_collection_witness :
    (DashScopeAsr.recognize dsIoSeq [] 16000).1 =
      .ok ⟨[("a", false), ("b", false)].foldl
        (fun a p => ds_sentence_step a ⟨some p.1, p.2⟩) "", true⟩ :=
  ds_result_collection dsIoSeq [] 16000 [("a", false), ("b", false)] []
    rfl rfl

/-! ### C7: FunASR socket-error tolerance -/

/-- A FunASR text frame carrying transcript text `t` (not final, no mode). -/
def fun_text_frame (t : String) : WsIncoming FunAsrWireMsg :=
  .text (.ok ⟨some t, false, none, none, none⟩)

/-- A session that sends transcript "a", then overwrites it with the empty
transcript, then fails at the socket. -/
def funIoReset : FunIo :=
  ⟨.ok (), [fun_text_frame "a", fun_text_frame "", .sockErr "reset"]⟩

/-- C7 counterexample: a transcript-carrying message ("a") was received, yet
the subsequent socket error still fails with a Network error, because a later
message reset the accumulated transcript to "" — tolerance depends on the
accumulated transcript being non-empty at the error, not on a transcript
having been received. -/
theorem funasr_partial_counterexample :
    (FunAsr.recognize funIoReset [] 16000).1 = .error (.network "reset") ∧
      ∀ r : AsrResult, (FunAsr.recognize funIoReset [] 16000).1 ≠ .ok r :=
  ⟨rfl, fun r h => by
    rw [show (FunAsr.recognize funIoReset [] 16000).1 =
      Except.error (AsrError.network "reset") from rfl] at h
    exact Except.noConfusion h⟩

/-- A frame the FunASR collection loop passes over without stopping: an
unparseable text frame, a non-final text frame without the offline marker, or
a non-text frame. -/
def fun_benign (f : WsIncoming FunAsrWireMsg) : Prop :=
  match f with
  | .text (.error _) => True
  | .text (.ok m) => m.is_final = false ∧ m.mode ≠ some "offline"
  | .other => True
  | _ => False

/-- The transcript accumulated by the FunASR loop over a frame list: each
parsed message's `text` field overwrites the accumulator. -/
def fun_accum : List (WsIncoming FunAsrWireMsg) → String → String
  | [], acc => acc
  | .text (.ok m) :: rest, acc =>
    fun_accum rest (match m.text with | some t => t | none => acc)
  | _ :: rest, acc => fun_accum rest acc

/-- Running the FunASR collection loop over benign frames up to a socket
error: the outcome is decided by whether the accumulated transcript is empty
at that point. -/
theorem funasr_collect_sockErr (e : String)
    (rest : List (WsIncoming FunAsrWireMsg)) :
    ∀ l : List (WsIncoming FunAsrWireMsg), (∀ f ∈ l, fun_benign f) →
      ∀ acc, funasr_collect (l ++ .sockErr e :: rest) acc =
        if (fun_accum l acc).isEmpty then .error (.network e)
        else .ok (fun_accum l acc) := by
  intro l
  induction l with
  | nil => intro _ acc; rfl
  | cons f l ih =>
    intro hben acc
    have hbf : fun_benign f := hben f (List.mem_cons_self f l)
    have hbl : ∀ g ∈ l, fun_benign g := fun g hg => hben g (List.mem_cons_of_mem f hg)
    cases f with
    | text p =>
      cases p with
      | error s => simpa [funasr_collect, fun_accum] using ih hbl acc
      | ok m =>
        obtain ⟨hfin, hmode⟩ := hbf
        simpa [funasr_collect, fun_accum, parse_funasr_response, hfin, hmode]
          using ih hbl (match m.text with | some t => t | none => acc)
    | close => exact absurd hbf (by simp [fun_benign])
    | sockErr s => exact absurd hbf (by simp [fun_benign])
    | other => simpa [funasr_collect, fun_accum] using ih hbl acc

/-- C7 amended: in the local streaming client, a socket error while the
accumulated transcript is non-empty is tolerated and `recognize` returns that
partial transcript; a socket error while the accumulated transcript is empty
fails with a Network error. (A message may carry an empty `text`, so this is
not the same as "after/before a transcript-carrying message was received".) -/
theorem funasr_sockErr_tolerance (io : FunIo) (audio_data : List ℕ)
    (sample_rate : ℕ) (l1 : List (WsIncoming FunAsrWireMsg)) (e : String)
    (rest : List (WsIncoming FunAsrWireMsg))
    (hconn : io.connect = .ok ())
    (hmsgs : io.msgs = l1 ++ .sockErr e :: rest)
    (hben : ∀ f ∈ l1, fun_benign f) :
    (fun_accum l1 "" = "" →
      (FunAsr.recognize io audio_data sample_rate).1 = .error (.network e)) ∧
    (fun_accum l1 "" ≠ "" →
      (FunAsr.recognize io audio_data sample_rate).1 =
        .ok ⟨fun_accum l1 "", true⟩) := by
  have hcol : funasr_collect io.msgs "" =
      if (fun_accum l1 "").isEmpty then .error (.network e)
      else .ok (fun_accum l1 "") := by
    rw [hmsgs]; exact funasr_collect_sockErr e rest l1 hben ""
  constructor
  · intro hempty
    have hi : (fun_accum l1 "").isEmpty = true := by rw [hempty]; rfl
    unfold FunAsr.recognize
    simp [hconn, hcol, hi]
  · intro hne
    have hi : (fun_accum l1 "").isEmpty = false := by
      rcases h2 : (fun_accum l1 "").isEmpty with _ | _
      · rfl
      · exact absurd ((String.isEmpty_iff _).mp h2) hne
    unfold FunAsr.recognize
    simp [hconn, hcol, hi]

/-- A session that sends transcript "a" and then fails at the socket. -/
def funIoPartial : FunIo := ⟨.ok (), [fun_text_frame "a", .sockErr "reset"]⟩

/-- Witness for the amended C7: with non-empty accumulated transcript "a", the
socket error is tolerated and the partial transcript is returned. -/
theorem funasr_sockErr_tolerance_witness :
    (FunAsr.recognize funIoPartial [] 16000).1 =
      .ok ⟨fun_accum [fun_text_frame "a"] "", true⟩ :=
  (funasr_sockErr_tolerance funIoPartial [] 16000 [fun_text_frame "a"]
      "reset" [] rfl rfl
      (by
        intro f hf
        rw [List.mem_singleton] at hf
        subst hf
        exact ⟨rfl, by simp⟩)).2
    (by decide)

/-! ### C5: remote error events -/

/-- A FunASR wire message that is a remote error object: serde drops the
error fields, so it parses as an all-default response. -/
def funIoErr : FunIo :=
  ⟨.ok (), [.text (.ok ⟨none, false, none, some "InternalError", some "boom"⟩),
    .close]⟩

/-- C5 counterexample: the local streaming client receives an explicit remote
error object (code "InternalError", message "boom") and still returns a
successful empty result — it has no error-code handling at all, so no `Api`
error is ever produced. -/
theorem funasr_ignores_remote_error_counterexample :
    (FunAsr.recognize funIoErr [] 16000).1 = .ok ⟨"", true⟩ ∧
      ∀ s, (FunAsr.recognize funIoErr [] 16000).1 ≠ .error (.api s) :=
  ⟨rfl, fun s h => by
    rw [show (FunAsr.recognize funIoErr [] 16000).1 =
      Except.ok ⟨"", true⟩ from rfl] at h
    exact Except.noConfusion h⟩

/-- A frame both DashScope loops pass over without stopping: no error code,
not `task-finished` (and a `task-started` among them only moves the session
from the wait phase to the collection phase). -/
def ds_benign (f : WsIncoming WsResponse) : Prop :=
  match f with
  | .text (.ok r) => r.header.error_code = none ∧ r.header.event ≠ "task-finished"
  | .other => True
  | _ => False

/-- The DashScope collection loop aborts with the remote code and message when
it meets an error frame after any benign frames. -/
theorem ds_collect_benign_err (r : WsResponse) (code : String)
    (hcode : r.header.error_code = some code)
    (rest : List (WsIncoming WsResponse)) :
    ∀ l : List (WsIncoming WsResponse), (∀ f ∈ l, ds_benign f) →
      ∀ acc, ds_collect_results (l ++ .text (.ok r) :: rest) acc =
        .error (.api (code ++ ": " ++ r.header.error_message.getD "")) := by
  intro l
  induction l with
  | nil => intro _ acc; simp [ds_collect_results, hcode]
  | cons f l ih =>
    intro hben acc
    have hbf : ds_benign f := hben f (List.mem_cons_self f l)
    have hbl : ∀ g ∈ l, ds_benign g := fun g hg => hben g (List.mem_cons_of_mem f hg)
    cases f with
    | text p =>
      cases p with
      | error s => exact absurd hbf (by simp [ds_benign])
      | ok r2 =>
        obtain ⟨hc2, hev2⟩ := hbf
        by_cases hev : r2.header.event = "result-generated"
        · simp [ds_collect_results, hc2, hev, ih hbl]
        · simp [ds_collect_results, hc2, hev, hev2, ih hbl]
    | close => exact absurd hbf (by simp [ds_benign])
    | sockErr s => exact absurd hbf (by simp [ds_benign])
    | other => simpa [ds_collect_results] using ih hbl acc

/-- The DashScope client aborts with an `Api` error carrying the remote code
and message whenever an error frame arrives after any benign frames, at
either stage of the session. -/
theorem ds_recognize_benign_err (audio_data : List ℕ) (sample_rate : ℕ)
    (r : WsResponse) (code : String)
    (hcode : r.header.error_code = some code)
    (rest : List (WsIncoming WsResponse)) :
    ∀ l1 : List (WsIncoming WsResponse), (∀ f ∈ l1, ds_benign f) →
      (DashScopeAsr.recognize ⟨.ok (), l1 ++ .text (.ok r) :: rest⟩
          audio_data sample_rate).1 =
        .error (.api (code ++ ": " ++ r.header.error_message.getD "")) := by
  intro l1
  induction l1 with
  | nil =>
    intro _
    unfold DashScopeAsr.recognize
    simp [waitTaskStarted, hcode]
  | cons f l ih =>
    intro hben
    have hbf : ds_benign f := hben f (List.mem_cons_self f l)
    have hbl : ∀ g ∈ l, ds_benign g := fun g hg => hben g (List.mem_cons_of_mem f hg)
    cases f with
    | text p =>
      cases p with
      | error s => exact absurd hbf (by simp [ds_benign])
      | ok r2 =>
        obtain ⟨hc2, hev2⟩ := hbf
        by_cases hev : r2.header.event = "task-started"
        · unfold DashScopeAsr.recognize
          have hwait : waitTaskStarted
              ((WsIncoming.text (.ok r2) :: (l ++ .text (.ok r) :: rest))) =
              .ok (true, l ++ .text (.ok r) :: rest) := by
            simp [waitTaskStarted, hc2, hev]
          simp [hwait, ds_collect_benign_err r code hcode rest l hbl]
        · have hskip : ∀ tail, waitTaskStarted
              (WsIncoming.text (.ok r2) :: tail) = waitTaskStarted tail := by
            intro tail
            simp [waitTaskStarted, hc2, hev]
          have := ih hbl
          unfold DashScopeAsr.recognize at this ⊢
          simpa [hskip] using this
    | close => exact absurd hbf (by simp [ds_benign])
    | sockErr s => exact absurd hbf (by simp [ds_benign])
    | other =>
      have hskip : ∀ tail, waitTaskStarted (WsIncoming.other :: tail) =
          waitTaskStarted tail := fun tail => rfl
      have := ih hbl
      unfold DashScopeAsr.recognize at this ⊢
      simpa [hskip] using this

/-- A frame both Qwen loops pass over without stopping: no error object, not
the completion event (a session-ready event among them only moves the session
from the wait phase to the collection phase). -/
def qwen_benign (f : WsIncoming ResponseEvent) : Prop :=
  match f with
  | .text (.ok r) => r.error = none ∧
      r.event_type ≠ "conversation.item.input_audio_transcription.completed"
  | .other => True
  | _ => False

/-- The Qwen collection loop aborts with the remote error message when it
meets an error frame after any benign frames. -/
theorem qwen_collect_benign_err (r : ResponseEvent) (m : String)
    (herr : r.error = some ⟨m⟩)
    (rest : List (WsIncoming ResponseEvent)) :
    ∀ l : List (WsIncoming ResponseEvent), (∀ f ∈ l, qwen_benign f) →
      ∀ acc, qwen_collect (l ++ .text (.ok r) :: rest) acc =
        .error (.api m) := by
  intro l
  induction l with
  | nil => intro _ acc; simp [qwen_collect, herr]
  | cons f l ih =>
    intro hben acc
    have hbf : qwen_benign f := hben f (List.mem_cons_self f l)
    have hbl : ∀ g ∈ l, qwen_benign g := fun g hg => hben g (List.mem_cons_of_mem f hg)
    cases f with
    | text p =>
      cases p with
      | error s => exact absurd hbf (by simp [qwen_benign])
      | ok r2 =>
        obtain ⟨he2, hev2⟩ := hbf
        by_cases hev : r2.event_type =
          "conversation.item.input_audio_transcription.text"
        · simp [qwen_collect, he2, hev, hev2, ih hbl]
        · simp [qwen_collect, he2, hev, hev2, ih hbl]
    | close => exact absurd hbf (by simp [qwen_benign])
    | sockErr s => exact absurd hbf (by simp [qwen_benign])
    | other => simpa [qwen_collect] using ih hbl acc

/-- The Qwen client aborts with an `Api` error carrying the remote message
whenever an error frame arrives after any benign frames, at either stage. -/
theorem qwen_recognize_benign_err (audio_data : List ℕ) (sample_rate : ℕ)
    (haudio : audio_data ≠ [])
    (r : ResponseEvent) (m : String) (herr : r.error = some ⟨m⟩)
    (rest : List (WsIncoming ResponseEvent)) :
    ∀ l1 : List (WsIncoming ResponseEvent), (∀ f ∈ l1, qwen_benign f) →
      (QwenAsr.recognize ⟨.ok (), l1 ++ .text (.ok r) :: rest⟩
          audio_data sample_rate).1 = .error (.api m) := by
  have hemp : audio_data.isEmpty = false := by
    simpa [List.isEmpty_iff] using haudio
  intro l1
  induction l1 with
  | nil =>
    intro _
    unfold QwenAsr.recognize
    simp [waitSessionReady, herr]
  | cons f l ih =>
    intro hben
    have hbf : qwen_benign f := hben f (List.mem_cons_self f l)
    have hbl : ∀ g ∈ l, qwen_benign g := fun g hg => hben g (List.mem_cons_of_mem f hg)
    cases f with
    | text p =>
      cases p with
      | error s => exact absurd hbf (by simp [qwen_benign])
      | ok r2 =>
        obtain ⟨he2, hev2⟩ := hbf
        by_cases hev : r2.event_type = "session.created" ∨
            r2.event_type = "session.updated"
        · unfold QwenAsr.recognize
          have hwait : waitSessionReady
              ((WsIncoming.text (.ok r2) :: (l ++ .text (.ok r) :: rest))) =
              .ok (true, l ++ .text (.ok r) :: rest) := by
            rcases hev with hev | hev <;> simp [waitSessionReady, he2, hev]
          simp [hwait, hemp, qwen_collect_benign_err r m herr rest l hbl]
        · push_neg at hev
          obtain ⟨hev3, hev4⟩ := hev
          have hskip : ∀ tail, waitSessionReady
              (WsIncoming.text (.ok r2) :: tail) = waitSessionReady tail := by
            intro tail
            simp [waitSessionReady, he2, hev3, hev4]
          have := ih hbl
          unfold QwenAsr.recognize at this ⊢
          simpa [hskip] using this
    | close => exact absurd hbf (by simp [qwen_benign])
    | sockErr s => exact absurd hbf (by simp [qwen_benign])
    | other =>
      have hskip : ∀ tail, waitSessionReady (WsIncoming.other :: tail) =
          waitSessionReady tail := fun tail => rfl
      have := ih hbl
      unfold QwenAsr.recognize at this ⊢
      simpa [hskip] using this

/-- C5 amended: the DashScope-style and realtime conversational clients abort
with an `Api` error carrying the remote error (code and message where the
protocol provides both; the conversational protocol carries only a message)
when an error frame arrives at any stage; the local streaming client has no
error-code handling at all — serde drops such fields at deserialization, so a
remote error object is processed as an ordinary (empty) message and never
yields an `Api` error. -/
theorem remote_error_aborts (audio_data : List ℕ) (sample_rate : ℕ) :
    (∀ (io : DsIo) (l1 rest : List (WsIncoming WsResponse)) (r : WsResponse)
        (code : String),
      io.connect = .ok () → io.msgs = l1 ++ .text (.ok r) :: rest →
      (∀ f ∈ l1, ds_benign f) → r.header.error_code = some code →
        (DashScopeAsr.recognize io audio_data sample_rate).1 =
          .error (.api (code ++ ": " ++ r.header.error_message.getD ""))) ∧
    (∀ (io : QwenIo) (l1 rest : List (WsIncoming ResponseEvent))
        (r : ResponseEvent) (m : String),
      io.connect = .ok () → audio_data ≠ [] →
      io.msgs = l1 ++ .text (.ok r) :: rest →
      (∀ f ∈ l1, qwen_benign f) → r.error = some ⟨m⟩ →
        (QwenAsr.recognize io audio_data sample_rate).1 = .error (.api m)) ∧
    (∀ m : FunAsrWireMsg, parse_funasr_response m =
      parse_funasr_response { m with error_code := none, error_message := none }) := by
  refine ⟨fun io l1 rest r code hconn hmsgs hben hcode => ?_,
    fun io l1 rest r m hconn haudio hmsgs hben herr => ?_,
    fun m => rfl⟩
  · obtain ⟨c, msgs⟩ := io
    cases hconn
    cases hmsgs
    exact ds_recognize_benign_err audio_data sample_rate r code hcode rest l1 hben
  · obtain ⟨c, msgs⟩ := io
    cases hconn
    cases hmsgs
    exact qwen_recognize_benign_err audio_data sample_rate haudio r m herr
      rest l1 hben

/-- A DashScope session answering the handshake with a remote error. -/
def dsIoErr : DsIo :=
  ⟨.ok (), [.text (.ok ⟨⟨"task-failed", some "InvalidParameter", some "bad"⟩, none⟩)]⟩

/-- A Qwen session delivering a remote error after the session is ready. -/
def qwenIoErr : QwenIo :=
  ⟨.ok (), [.text (.ok ⟨"session.created", none, none⟩),
    .text (.ok ⟨"error", none, some ⟨"boom"⟩⟩)]⟩

/-- Witness for the amended C5 at concrete error-carrying sessions. -/
theorem remote_error_aborts_witness :
    (DashScopeAsr.recognize dsIoErr [1] 16000).1 =
      .error (.api ("InvalidParameter" ++ ": " ++ (some "bad").getD "")) ∧
    (QwenAsr.recognize qwenIoErr [1] 16000).1 = .error (.api "boom") ∧
    parse_funasr_response ⟨none, false, none, some "InternalError", some "boom"⟩ =
      parse_funasr_response ⟨none, false, none, none, none⟩ :=
  ⟨(remote_error_aborts [1] 16000).1 dsIoErr [] []
      ⟨⟨"task-failed", some "InvalidParameter", some "bad"⟩, none⟩
      "InvalidParameter" rfl rfl (by simp) rfl,
    (remote_error_aborts [1] 16000).2.1 qwenIoErr
      [.text (.ok ⟨"session.created", none, none⟩)] []
      ⟨"error", none, some ⟨"boom"⟩⟩ "boom" rfl (by simp) rfl
      (by
        intro f hf
        rw [List.mem_singleton] at hf
        subst hf
        exact ⟨rfl, by simp⟩)
      rfl,
    (remote_error_aborts [1] 16000).2.2
      ⟨none, false, none, some "InternalError", some "boom"⟩⟩

/-! ### C4: refinement is best-effort -/

/-- An environment where refinement is enabled and fails, and the output
boundary also fails. -/
def refineFailEnv : PipeEnv where
  config := ⟨"FunAsr", true, false, 0⟩
  stop_device := .ok ()
  encode_to_wav := fun _ _ _ => .ok []
  encode_to_pcm := fun _ => [7]
  create_asr := .ok ()
  recognize := fun _ _ => .ok ⟨"hello", true⟩
  create_llm := .ok (some ())
  refine_text := fun _ => .error ⟨"llmboom"⟩
  output_text := fun _ _ _ _ => .error ⟨"outboom"⟩

/-- C4 counterexample: refinement is enabled, the transcript "hello" is
non-empty and the refinement call fails — yet the operation does fail, with
the output error, because the output boundary fails afterwards.  "The
operation does not fail" does not hold of every such execution. -/
theorem refinement_failure_counterexample :
    (stop_and_process refineFailEnv none loudRecorder).result =
      .error (.output ⟨"outboom"⟩) := by
  have h1 : ¬ max_amplitude [(0.2 : ℚ)] < 0.001 := by
    rw [max_amplitude_singleton 0.2 (by norm_num)]; norm_num
  have h2 : ¬ max_amplitude [(0.2 : ℚ)] < 0.05 := by
    rw [max_amplitude_singleton 0.2 (by norm_num)]; norm_num
  have h0 : stop_and_process refineFailEnv none loudRecorder =
      process_gated refineFailEnv none [0.2] ⟨.idle, [], 16000, 1⟩ := by
    simp [stop_and_process, AudioRecorder.stop, loudRecorder, h1, h2,
      refineFailEnv]
  rw [h0]
  rfl

/-- C4 amended: when refinement is enabled, the transcript `t` is non-empty
and the refinement call fails, the refinement failure itself never fails the
operation — the pipeline continues with the unrefined transcript, invokes the
output boundary with it, and returns it whenever output succeeds; only an
output-boundary failure can still fail the operation (with the output error,
not the refinement error). -/
theorem refinement_best_effort (env : PipeEnv) (pid : Option ℤ)
    (rec : AudioRecorder) (samples : List ℚ) (t : String) (b : Bool)
    (le : LlmError)
    (hdev : env.stop_device = .ok ()) (hbuf : rec.buffer = samples)
    (hgate : 0.05 ≤ max_amplitude samples)
    (hprov : env.config.asr_provider ≠ "OpenAIWhisper")
    (hca : env.create_asr = .ok ())
    (hrec : env.recognize (env.encode_to_pcm samples) rec.sample_rate = .ok ⟨t, b⟩)
    (ht : t ≠ "")
    (henabled : env.config.llm_enabled = true)
    (hllm : env.create_llm = .ok (some ()))
    (href : env.refine_text t = .error le) :
    PipeEvent.outputInvoked t pid ∈ (stop_and_process env pid rec).events ∧
    (∀ u : Unit,
      env.output_text t env.config.restore_clipboard env.config.paste_delay_ms
        pid = .ok u →
      (stop_and_process env pid rec).result = .ok t) ∧
    (∀ oe : OutputError,
      env.output_text t env.config.restore_clipboard env.config.paste_delay_ms
        pid = .error oe →
      (stop_and_process env pid rec).result = .error (.output oe)) := by
  have hne : samples.isEmpty = false := by
    cases hs : samples with
    | nil =>
      rw [hs] at hgate
      norm_num [max_amplitude] at hgate
    | cons a l => rfl
  have hn1 : ¬ max_amplitude samples < 0.001 :=
    not_lt.mpr (le_trans (by norm_num) hgate)
  have hn2 : ¬ max_amplitude samples < 0.05 := not_lt.mpr hgate
  have hti : t.isEmpty = false := by
    rcases h2 : t.isEmpty with _ | _
    · rfl
    · exact absurd ((String.isEmpty_iff t).mp h2) ht
  have h0 : stop_and_process env pid rec =
      process_gated env pid samples { rec with state := .idle, buffer := [] } := by
    simp [stop_and_process, AudioRecorder.stop, hdev, hbuf, hne, hn1, hn2]
  rw [h0]
  unfold process_gated
  simp only [if_neg hprov, hca, hrec, henabled, hllm, href, hti,
    Bool.not_false, Bool.and_self]
  cases hout : env.output_text t env.config.restore_clipboard
      env.config.paste_delay_ms pid with
  | ok u => simp [hout, hti]
  | error oe => simp [hout, hti]

/-- Like `refineFailEnv` but with a succeeding output boundary. -/
def refineFailOutOkEnv : PipeEnv :=
  { refineFailEnv with output_text := fun _ _ _ _ => .ok () }

/-- Witness for the amended C4: refinement fails, output succeeds — the
unrefined transcript "hello" is emitted and returned. -/
theorem refinement_best_effort_witness :
    PipeEvent.outputInvoked "hello" none ∈
      (stop_and_process refineFailOutOkEnv none loudRecorder).events ∧
    (stop_and_process refineFailOutOkEnv none loudRecorder).result =
      .ok "hello" := by
  have h := refinement_best_effort refineFailOutOkEnv none loudRecorder
    [0.2] "hello" true ⟨"llmboom"⟩ rfl rfl
    (by rw [max_amplitude_singleton 0.2 (by norm_num)]; norm_num)
    (by decide) rfl rfl (by decide) rfl rfl rfl
  exact ⟨h.1, h.2.1 () rfl⟩

end Vhisper
